import Mathlib

/-!
# Verification of the rotating file sink of `flexi_logger`

This file contains a shallow embedding, in Lean 4, of the rotation,
naming, retention and write-path logic of the `flexi_logger` repository
(files `src/writers/file_log_writer/state.rs`, `src/deferred_now.rs`,
`src/util.rs`, `src/parameters.rs`), together with theorems that settle
the claims of the specification against that embedding.

Filesystem effects (rename, open, metadata, glob listing, byte writes)
are modelled by an explicit oracle structure `Fs`; wall-clock time and
civil-time conversions by a `World` structure.  Machine integers of the
source (`u64` sizes, `u32` indices, `i32` day numbers) are modelled as
`Nat`/`Int`; none of the modelled arithmetic can overflow in the
reachable range, and the parsing function checks the `u32` bound
explicitly.
-/

namespace FlexiLogger

/-! ## Errors (std::io::ErrorKind, ERRCODE of util.rs) -/

/-- The error kinds the modelled code distinguishes: `NotFound` gets
special treatment in the rotation renames; everything else is opaque. -/
inductive ErrorKind where
  | notFound
  | permissionDenied
  | other
deriving DecidableEq, Repr

/-- A `std::io::Error`, reduced to what the code inspects: its kind. -/
structure IoError where
  kind : ErrorKind
deriving DecidableEq, Repr

/-- The diagnostic-channel codes of `util.rs` (`ERRCODE`). -/
inductive Errcode where
  | write
  | flush
  | format
  | poison
  | logFile
  | writerSpec
  | symlink
deriving DecidableEq, Repr

/-! ## String helpers mirroring `std::path::Path` operations

The enumerated files are full path strings.  `Path::file_stem` and
`Path::extension` operate on the final component; the glob patterns of
the sink guarantee that the file name is the part after the last dot
(the file names produced by the sink never contain a separator after
the last dot), so splitting the string at its last `.` models them
faithfully on every reachable input. -/

/-- Split a character list at its last dot: returns (part before, part
after), or `none` when no dot occurs. -/
def lastDotSplit : List Char → Option (List Char × List Char)
  | [] => none
  | c :: cs =>
    match lastDotSplit cs with
    | some (st, ex) => some (c :: st, ex)
    | none => if c = '.' then some ([], cs) else none

/-- Model of `Path::extension`: the part after the last dot, if any. -/
def extensionOf (s : String) : Option String :=
  (lastDotSplit s.toList).map (fun p => String.mk p.2)

/-- Model of `Path::file_stem`: the name with its last extension removed. -/
def file_stem (s : String) : String :=
  match lastDotSplit s.toList with
  | some (st, _) => String.mk st
  | none => s

/-- Model of `Path::set_extension`: replace the current extension (the
part after the last dot) by the given one. -/
def set_extension (s : String) (ext : String) : String :=
  file_stem s ++ "." ++ ext

/-- The characters after the last occurrence of the two-character marker
`_r`, if the marker occurs at all (`str::rsplit` driven from the right). -/
def afterLastRMark : List Char → Option (List Char)
  | [] => none
  | c :: cs =>
    match afterLastRMark cs with
    | some t => some t
    | none =>
      match c, cs with
      | '_', 'r' :: rest => some rest
      | _, _ => none

/-- Model of `str::parse::<u32>`: an optional leading plus sign, then at
least one ASCII digit, all digits, and the value must fit in 32 bits. -/
def parse_u32 (s : String) : Option Nat :=
  let cs := s.toList
  let cs := match cs with
    | '+' :: rest => rest
    | l => l
  if cs = [] then none
  else if cs.all Char.isDigit then
    let v := cs.foldl (fun a c => a * 10 + (c.toNat - 48)) 0
    if v < 2 ^ 32 then some v else none
  else none

/-! ## FileSpec -/

/-- Modelled from the spec: the `FileSpec` type itself is not among the
given source files (only its callers are).  Per the spec, it bundles
`directory + basename + optional discriminant + suffix` and renders
paths as `{directory}/{basename}[_{discriminant}]{infix}.{suffix}`. -/
structure FileSpec where
  directory : String
  basename : String
  o_discriminant : Option String
  suffix : String
deriving DecidableEq, Repr

/-- Modelled from the spec: `FileSpec::as_pathbuf(o_infix)` interpolates
the optional infix between basename(+discriminant) and suffix. -/
def FileSpec.as_pathbuf (fs : FileSpec) (oInfix : Option String) : String :=
  fs.directory ++ "/" ++ fs.basename
    ++ (match fs.o_discriminant with
        | some d => "_" ++ d
        | none => "")
    ++ (match oInfix with
        | some i => i
        | none => "")
    ++ "." ++ fs.suffix

/-- Source `state.rs`: the infix of the active file. -/
def CURRENT_INFIX : String := "_rCURRENT"

/-- Source `state.rs`: `format!` with the index zero-padded on the left to a
minimal width of 5 digits, prefixed by `_r`. -/
def number_infix (idx : Nat) : String :=
  "_r" ++ String.mk (List.replicate (5 - (toString idx).length) '0') ++ toString idx

/-! ## Rotation data model (`state.rs`, `parameters.rs`) -/

/-- Describes the latest existing numbered log file. -/
inductive IdxState where
  | Start
  | Idx (k : Nat)
deriving DecidableEq, Repr

/-- Source `parameters.rs`: `SplitAtEveryNewDay`.  The `Arc<AtomicI32>` is
modelled as a reference (an index into the day-number heap of the
`World`); cloning the structure copies the reference, as `Arc::clone`
shares the allocation. -/
structure SplitAtEveryNewDay where
  atomic_day_number : Nat
  utc_offset : Int
deriving DecidableEq, Repr

/-- Rust `derive(Clone)` on `SplitAtEveryNewDay` clones the `Arc`, which
yields a handle to the same atomic. -/
def SplitAtEveryNewDay.clone (s : SplitAtEveryNewDay) : SplitAtEveryNewDay := s

/-- Source `parameters.rs`: `Age`. -/
inductive Age where
  | Day
  | Hour
  | Minute
  | Second
  | EveryNewDay (s : SplitAtEveryNewDay)
deriving DecidableEq, Repr

/-- Source `parameters.rs`: `Criterion` (sizes in bytes, `u64`). -/
inductive Criterion where
  | Size (size : Nat)
  | Age (age : Age)
  | AgeOrSize (age : Age) (size : Nat)
deriving DecidableEq, Repr

/-- Source `parameters.rs`: `Naming`; the timestamp variant carries a UTC
offset (modelled in seconds). -/
inductive Naming where
  | Timestamps (utc_offset : Int)
  | Numbers
deriving DecidableEq, Repr

/-- Source `parameters.rs`: `Cleanup`. -/
inductive Cleanup where
  | Never
  | KeepLogFiles (log_limit : Nat)
  | KeepCompressedFiles (compress_limit : Nat)
  | KeepLogAndCompressedFiles (log_limit compress_limit : Nat)
deriving DecidableEq, Repr

/-- Model of `Cleanup::do_cleanup`. -/
def Cleanup.do_cleanup : Cleanup → Bool
  | .Never => false
  | _ => true

/-- Source `state.rs`: `NamingState`. -/
inductive NamingState where
  | CreatedAt
  | IdxState (i : IdxState)
deriving DecidableEq, Repr

/-- Source `state.rs`: `RollState` (max_size, current_size). -/
inductive RollState where
  | Size (max_size current_size : Nat)
  | Age (age : Age)
  | AgeOrSize (age : Age) (max_size current_size : Nat)
deriving DecidableEq, Repr

/-! ## Time model (`time` crate, `deferred_now.rs`)

`OffsetDateTime` keeps the civil fields and the UTC offset (in
seconds); `to_offset` — the civil-time conversion of the `time`
crate — is an oracle of the `World`, since its calendar arithmetic is
outside the program.  The `Arc<AtomicI32>` day numbers live in a heap
`dayHeap` indexed by the reference stored in `SplitAtEveryNewDay`. -/

/-- Civil date-time plus UTC offset in seconds, as inspected by the code. -/
structure OffsetDateTime where
  year : Int
  month : Int
  day : Int
  hour : Int
  minute : Int
  second : Int
  offset : Int
deriving DecidableEq, Repr

/-- Model of `time::Date`: the calendar-date part. -/
structure Date where
  year : Int
  month : Int
  day : Int
deriving DecidableEq, Repr

/-- Model of `OffsetDateTime::date()`. -/
def OffsetDateTime.date (t : OffsetDateTime) : Date :=
  { year := t.year, month := t.month, day := t.day }

/-- The ambient wall clock and shared atomics. `now` is the value
`now_local_or_utc()` returns during the modelled call; `toOffset`
is the civil-time conversion `OffsetDateTime::to_offset`; `dayHeap`
holds the contents of the `EveryNewDay` atomics. -/
structure World where
  now : OffsetDateTime
  toOffset : OffsetDateTime → Int → OffsetDateTime
  dayHeap : Nat → Int

/-- Source `deferred_now.rs`: `year * 10000 + month * 100 + day`. -/
def offset_date_time_to_year_month_day_number (d : Date) : Int :=
  d.year * 10000 + d.month * 100 + d.day

/-- Source `deferred_now.rs`: today's packed day number at the given offset. -/
def now_as_year_month_day_number (w : World) (utc_offset : Int) : Int :=
  offset_date_time_to_year_month_day_number ((w.toOffset w.now utc_offset).date)

/-- The hard-coded `offset!(+8)` of `state.rs`, in seconds. -/
def offset_plus_8 : Int := 8 * 3600

/-! ## Filesystem oracle

One structure bundles the outcome of every filesystem operation the
modelled call may perform.  Operations taking a path are functions of
the path, so distinct paths may behave differently and repeated calls
are deterministic.  `globLogs`, `globGz`, `globZip` are the (ascending,
as the `glob` crate documents) results of the three sibling patterns. -/
structure Fs where
  rename : String → String → Except IoError Unit
  openFile : String → Except IoError Unit
  metadataLen : String → Except IoError Nat
  cleanupResult : Except IoError Unit
  writeAll : Nat → Except IoError Unit
  globLogs : List String
  globGz : List String
  globZip : List String
  chooseRotatedTarget : OffsetDateTime → String

/-! ## Rotation policy (`state.rs`) -/

/-- Source `state.rs`: `RotationState` (the cleanup-thread handle is modelled
by whether it is present). -/
structure RotationState where
  naming_state : NamingState
  roll_state : RollState
  created_at : OffsetDateTime
  cleanup : Cleanup
  has_cleanup_thread : Bool

/-- Model of `RotationState::size_rotation_necessary`: strictly greater. -/
def size_rotation_necessary (max_size current_size : Nat) : Bool :=
  decide (current_size > max_size)

/-- Model of `RotationState::age_rotation_necessary`.  The `EveryNewDay` branch
reads and possibly updates the shared atomic, hence returns the
updated `World` as well. -/
def age_rotation_necessary (w : World) (created_at : OffsetDateTime) (age : Age) :
    Bool × World :=
  let now := w.now
  match age with
  | .EveryNewDay s =>
    let current_date := (w.toOffset now s.utc_offset).date
    let number_current := offset_date_time_to_year_month_day_number current_date
    let d := w.dayHeap s.atomic_day_number
    if d = number_current then (false, w)
    else
      (true, { w with dayHeap := fun r =>
        if r = s.atomic_day_number then number_current else w.dayHeap r })
  | .Day =>
    (decide (created_at.year ≠ now.year ∨ created_at.month ≠ now.month
      ∨ created_at.day ≠ now.day), w)
  | .Hour =>
    (decide (created_at.year ≠ now.year ∨ created_at.month ≠ now.month
      ∨ created_at.day ≠ now.day ∨ created_at.hour ≠ now.hour), w)
  | .Minute =>
    (decide (created_at.year ≠ now.year ∨ created_at.month ≠ now.month
      ∨ created_at.day ≠ now.day ∨ created_at.hour ≠ now.hour
      ∨ created_at.minute ≠ now.minute), w)
  | .Second =>
    (decide (created_at.year ≠ now.year ∨ created_at.month ≠ now.month
      ∨ created_at.day ≠ now.day ∨ created_at.hour ≠ now.hour
      ∨ created_at.minute ≠ now.minute ∨ created_at.second ≠ now.second), w)

/-- Model of `RotationState::rotation_necessary`; the `||` of the `AgeOrSize`
branch short-circuits, so the age check (and its atomic update) is
skipped when the size already demands rotation. -/
def rotation_necessary (w : World) (rs : RotationState) : Bool × World :=
  match rs.roll_state with
  | .Size max_size current_size =>
    (size_rotation_necessary max_size current_size, w)
  | .Age age => age_rotation_necessary w rs.created_at age
  | .AgeOrSize age max_size current_size =>
    if size_rotation_necessary max_size current_size then (true, w)
    else age_rotation_necessary w rs.created_at age

/-! ## Configuration and state (`state.rs`, `file_log_writer.rs`) -/

/-- The part of `Config` the state engine reads (`print_message`,
symlink and write-mode details do not influence the modelled claims). -/
structure Config where
  file_spec : FileSpec
  append : Bool

/-- Modelled from the spec: `RotationConfig` is defined in
`file_log_writer/config.rs`, which is not among the given source files;
per the spec and the use sites in `state.rs` it bundles the rotation
criterion, the naming scheme and the cleanup strategy. -/
structure RotationConfig where
  criterion : Criterion
  naming : Naming
  cleanup : Cleanup

/-- Source `state.rs`: `Inner` (the boxed writer carries no modelled data). -/
inductive Inner where
  | Initial (o_rotation_config : Option RotationConfig) (cleanup_in_background : Bool)
  | Active (o_rotation_state : Option RotationState)

/-- Source `state.rs`: `State`. -/
structure State where
  config : Config
  inner : Inner

/-! ## Rename protocol (`state.rs`) -/

/-- Source `state.rs`: `rotate_output_file_to_idx`.  Computes the next index,
renames `_rCURRENT` to the numbered sibling, treats a `NotFound`
rename failure as success returning the UNCHANGED input state, and
surfaces any other rename error. -/
def rotate_output_file_to_idx (fs : Fs) (idx_state : IdxState) (config : Config) :
    Except IoError IdxState :=
  let new_idx := match idx_state with
    | .Start => 0
    | .Idx idx => idx + 1
  match fs.rename (config.file_spec.as_pathbuf (some CURRENT_INFIX))
      (config.file_spec.as_pathbuf (some ( number_infix new_idx))) with
  | .ok _ => .ok (.Idx new_idx)
  | .error e => if e.kind = .notFound then .ok idx_state else .error e

/-- Source `state.rs`: `rotate_output_file_to_date`.  The choice of the target
name (timestamp formatting plus the `.restart-NNNN` collision search
over the disk) is abstracted into the oracle `chooseRotatedTarget`;
the modelled claims concern only the rename and its error handling:
`NotFound` is success, anything else surfaces. -/
def rotate_output_file_to_date (fs : Fs) (creation_date : OffsetDateTime)
    (config : Config) : Except IoError Unit :=
  let current_path := config.file_spec.as_pathbuf (some CURRENT_INFIX)
  let rotated_path := fs.chooseRotatedTarget creation_date
  match fs.rename current_path rotated_path with
  | .ok _ => .ok ()
  | .error e => if e.kind = .notFound then .ok () else .error e

/-- Source `state.rs`: `get_creation_date`.  On the platforms of interest
(linux, windows) the real file property is unusable and the fake
creation date — `now_local_or_utc()` — is returned. -/
def get_creation_date (w : World) : OffsetDateTime := w.now

/-- Source `state.rs`: `open_log_file`.  Returns the creation date and the
path of the opened file (the writer itself carries no modelled data). -/
def open_log_file (fs : Fs) (w : World) (config : Config) (with_rotation : Bool) :
    Except IoError (OffsetDateTime × String) :=
  let oInfix := if with_rotation then some CURRENT_INFIX else none
  let p_path := config.file_spec.as_pathbuf oInfix
  match fs.openFile p_path with
  | .error e => .error e
  | .ok _ => .ok (get_creation_date w, p_path)

/-- Source `state.rs`: `try_roll_state_from_criterion`: when appending, seed
the current size from the file length on disk. -/
def try_roll_state_from_criterion (fs : Fs) (criterion : Criterion)
    (config : Config) (p_path : String) : Except IoError RollState :=
  match criterion with
  | .Age age => .ok (.Age age)
  | .Size size =>
    if config.append then
      match fs.metadataLen p_path with
      | .error e => .error e
      | .ok written_bytes => .ok (.Size size written_bytes)
    else .ok (.Size size 0)
  | .AgeOrSize age size =>
    if config.append then
      match fs.metadataLen p_path with
      | .error e => .error e
      | .ok written_bytes => .ok (.AgeOrSize age size written_bytes)
    else .ok (.AgeOrSize age size 0)

/-! ## Sibling enumeration and index discovery (`state.rs`) -/

/-- Source `state.rs`: `list_of_files` — the glob result (alphabetically
ascending, per the `glob` crate) is reversed. -/
def list_of_files (globResult : List String) : List String :=
  globResult.reverse

/-- Source `state.rs`: `list_of_log_and_compressed_files` — the reversed glob
results for the plain, `gz` and `zip` patterns, chained in that order. -/
def list_of_log_and_compressed_files (fs : Fs) : List String :=
  list_of_files fs.globLogs ++ list_of_files fs.globGz ++ list_of_files fs.globZip

/-- The part of the file stem after the last `_r` marker — the whole
stem when no `_r` occurs (`rsplit` always yields a first piece). -/
def trailing_r_segment (path : String) : String :=
  let stem := file_stem path
  match afterLastRMark stem.toList with
  | some t => String.mk t
  | none => stem

/-- The index the discovery assigns to one sibling file: its trailing
`_r` segment parsed as `u32`, with parse failures counted as 0
(`unwrap_or(0)`). -/
def rotate_idx_of_file (path : String) : Nat :=
  (parse_u32 (trailing_r_segment path)).getD 0

/-- One step of the index discovery: fold the index of one more file
into the running maximum. -/
def highest_idx_step (highest_idx : IdxState) (file : String) : IdxState :=
  match highest_idx with
  | .Start => .Idx (rotate_idx_of_file file)
  | .Idx prev => .Idx (Nat.max prev (rotate_idx_of_file file))

/-- Source `state.rs`: `get_highest_rotate_idx` over the enumerated siblings. -/
def get_highest_rotate_idx (files : List String) : IdxState :=
  files.foldl highest_idx_step .Start

/-! ## Retention (`state.rs`) -/

/-- What the retention pass does with one enumerated file. -/
inductive FileAction where
  | keep
  | compress (target : String)
  | delete
deriving DecidableEq, Repr

/-- Model of `remove_or_compress_too_old_logfiles_impl`: the translation of the
`Cleanup` variant into the pair (log_limit, compress_limit); `Never`
returns early (no pass at all). -/
def cleanup_limits : Cleanup → Option (Nat × Nat)
  | .Never => none
  | .KeepLogFiles log_limit => some (log_limit, 0)
  | .KeepCompressedFiles compress_limit => some (0, compress_limit)
  | .KeepLogAndCompressedFiles log_limit compress_limit =>
    some (log_limit, compress_limit)

/-- Model of `remove_or_compress_too_old_logfiles_impl`: the decision for the
file at position `index` of the enumeration: delete from
`log_limit + compress_limit` on; between the limits, compress to the
name with extension `log.gz` unless the extension already is `gz`
(a file without extension is skipped by the `if let`); keep below
`log_limit`. -/
def file_action (log_limit compress_limit index : Nat) (file : String) : FileAction :=
  if log_limit + compress_limit ≤ index then .delete
  else if log_limit ≤ index then
    match extensionOf file with
    | some ext => if ext ≠ "gz" then .compress (set_extension file "log.gz") else .keep
    | none => .keep
  else .keep

/-- The full plan of `remove_or_compress_too_old_logfiles_impl` over
the enumerated sibling list. -/
def remove_or_compress_plan (cleanup_config : Cleanup) (files : List String) :
    List (String × FileAction) :=
  match cleanup_limits cleanup_config with
  | none => []
  | some (l, z) => files.enum.map (fun p => (p.2, file_action l z p.1 p.2))

/-- Model of `remove_or_compress_too_old_logfiles`: with a cleanup thread, just
send `Act` (always succeeds); otherwise run the pass inline, whose
I/O outcome the oracle supplies (`Never` returns `Ok` immediately). -/
def remove_or_compress_too_old_logfiles (fs : Fs) (has_cleanup_thread : Bool)
    (cleanup_config : Cleanup) : Except IoError Unit :=
  if has_cleanup_thread then .ok ()
  else if cleanup_config.do_cleanup then fs.cleanupResult
  else .ok ()

/-! ## The state engine (`state.rs`: `State`) -/

/-- Model of `State::initialize` (name adjusted): the idempotent transition
`Initial → Active`.  Without a rotation config, just open the plain
file.  With one: for `Timestamps` and not appending, first rotate the
pre-existing `_rCURRENT` to the timestamp of its creation date at the
configured offset; for `Numbers`, discover the highest existing index
and, when not appending, rotate `_rCURRENT` to the next index.  Then
open `_rCURRENT`, seed the roll state, run the initial cleanup pass
(inline — the thread handle does not exist yet), spawn the cleanup
thread when requested, and store `created_at` converted to the
hard-coded offset `+8`.  Any error leaves `inner` unchanged. -/
def initialize_state (fs : Fs) (w : World) (config : Config) (inner : Inner) :
    Except IoError Unit × Inner :=
  match inner with
  | .Active o => (.ok (), .Active o)
  | .Initial none bg =>
    match open_log_file fs w config false with
    | .error e => (.error e, .Initial none bg)
    | .ok _ => (.ok (), .Active none)
  | .Initial (some rotate_config) bg =>
    let naming_res : Except IoError NamingState :=
      match rotate_config.naming with
      | .Timestamps utf_offset =>
        if !config.append then
          match rotate_output_file_to_date fs
              (w.toOffset (get_creation_date w) utf_offset) config with
          | .error e => .error e
          | .ok _ => .ok .CreatedAt
        else .ok .CreatedAt
      | .Numbers =>
        let rotation_state := get_highest_rotate_idx (list_of_log_and_compressed_files fs)
        if !config.append then
          match rotate_output_file_to_idx fs rotation_state config with
          | .error e => .error e
          | .ok i => .ok (.IdxState i)
        else .ok (.IdxState rotation_state)
    match naming_res with
    | .error e => (.error e, .Initial (some rotate_config) bg)
    | .ok naming_state =>
      match open_log_file fs w config true with
      | .error e => (.error e, .Initial (some rotate_config) bg)
      | .ok (created_at, p_path) =>
        match try_roll_state_from_criterion fs rotate_config.criterion config p_path with
        | .error e => (.error e, .Initial (some rotate_config) bg)
        | .ok roll_state =>
          let cleanup_res : Except IoError Unit :=
            if rotate_config.cleanup.do_cleanup then fs.cleanupResult else .ok ()
          match cleanup_res with
          | .error e => (.error e, .Initial (some rotate_config) bg)
          | .ok _ =>
            (.ok (), .Active (some {
              naming_state := naming_state
              roll_state := roll_state
              created_at := w.toOffset created_at offset_plus_8
              cleanup := rotate_config.cleanup
              has_cleanup_thread := rotate_config.cleanup.do_cleanup && bg }))

/-- Reset the size counter to 0, as the mount path does after a
successful reopen. -/
def reset_current_size : RollState → RollState
  | .Size max_size _ => .Size max_size 0
  | .AgeOrSize age max_size _ => .AgeOrSize age max_size 0
  | .Age age => .Age age

/-- Add the written byte count to the size counter, as the write path
does after a successful `write_all`. -/
def add_current_size (roll_state : RollState) (n : Nat) : RollState :=
  match roll_state with
  | .Size max_size current_size => .Size max_size (current_size + n)
  | .AgeOrSize age max_size current_size => .AgeOrSize age max_size (current_size + n)
  | .Age age => .Age age

/-- The rename part of the mount step: dispatch on the naming state,
write back the (possibly advanced) index state on success. -/
def rotate_step (fs : Fs) (config : Config) (rs : RotationState) :
    Except IoError NamingState :=
  match rs.naming_state with
  | .CreatedAt =>
    match rotate_output_file_to_date fs rs.created_at config with
    | .error e => .error e
    | .ok _ => .ok .CreatedAt
  | .IdxState idx_state =>
    match rotate_output_file_to_idx fs idx_state config with
    | .error e => .error e
    | .ok i => .ok (.IdxState i)

/-- Model of `State::mount_next_linewriter_if_necessary`: when the policy
demands rotation, rename `_rCURRENT` away (updating the index state on
success), reopen `_rCURRENT`, store the new creation date converted to
the hard-coded offset `+8`, reset the size counter, and trigger
retention.  Each failing step propagates its error, leaving exactly
the mutations made so far in place. -/
def mount_next_linewriter_if_necessary (fs : Fs) (w : World) (config : Config)
    (inner : Inner) : Except IoError Unit × Inner × World :=
  match inner with
  | .Active (some rs) =>
    let (need, w1) := rotation_necessary w rs
    if need then
      match rotate_step fs config rs with
      | .error e => (.error e, .Active (some rs), w1)
      | .ok ns =>
        let rs1 := { rs with naming_state := ns }
        match open_log_file fs w1 config true with
        | .error e => (.error e, .Active (some rs1), w1)
        | .ok (created_at, _) =>
          let rs2 := { rs1 with
            created_at := w1.toOffset created_at offset_plus_8
            roll_state := reset_current_size rs1.roll_state }
          match remove_or_compress_too_old_logfiles fs rs2.has_cleanup_thread
              rs2.cleanup with
          | .error e => (.error e, .Active (some rs2), w1)
          | .ok _ => (.ok (), .Active (some rs2), w1)
    else (.ok (), .Active (some rs), w1)
  | i => (.ok (), i, w)

/-- The observable outcome of one `write_buffer` call. -/
structure WriteOutcome where
  result : Except IoError Unit
  state : State
  world : World
  diags : List Errcode

/-- Model of `State::write_buffer`: initialize lazily (errors propagate), then
rotate if necessary — an error of the mount step is only REPORTED to
the diagnostic channel (`ERRCODE::LogFile`) and swallowed — then write
the buffer (errors propagate) and add its length to the size counter. -/
def write_buffer (fs : Fs) (w : World) (st : State) (bufLen : Nat) : WriteOutcome :=
  let (init_res, inner1) :=
    match st.inner with
    | .Initial a b => initialize_state fs w st.config (.Initial a b)
    | i => (.ok (), i)
  match init_res with
  | .error e =>
    { result := .error e, state := { st with inner := inner1 }, world := w, diags := [] }
  | .ok _ =>
    let (mount_res, inner2, w2) := mount_next_linewriter_if_necessary fs w st.config inner1
    let diags : List Errcode :=
      match mount_res with
      | .error _ => [.logFile]
      | .ok _ => []
    match inner2 with
    | .Active o_rotation_state =>
      match fs.writeAll bufLen with
      | .error e =>
        { result := .error e, state := { st with inner := .Active o_rotation_state },
          world := w2, diags := diags }
      | .ok _ =>
        let o_rs := o_rotation_state.map
          (fun rs => { rs with roll_state := add_current_size rs.roll_state bufLen })
        { result := .ok (), state := { st with inner := .Active o_rs },
          world := w2, diags := diags }
    | .Initial a b =>
      { result := .ok (), state := { st with inner := .Initial a b },
        world := w2, diags := diags }

/-- The size counter visible in a state, when there is one. -/
def Inner.current_size? : Inner → Option Nat
  | .Active (some rs) =>
    match rs.roll_state with
    | .Size _ current_size => some current_size
    | .AgeOrSize _ _ current_size => some current_size
    | .Age _ => none
  | _ => none

/-- Did this call perform a complete rotation (policy demanded it, the
rename was a success — possibly the `NotFound` no-op — and the reopen
succeeded)?  Exactly then the size counter was reset before writing. -/
def rotation_completed (fs : Fs) (w : World) (config : Config) (rs : RotationState) :
    Bool :=
  (rotation_necessary w rs).1 && (rotate_step fs config rs).isOk &&
  (fs.openFile (config.file_spec.as_pathbuf (some CURRENT_INFIX))).isOk

/-! ## The buffered write frontend (`util.rs`: `write_buffered`) -/

/-- What the format callable did: the bytes it wrote into the buffer
before returning, and its result. -/
structure FormatOutcome where
  written : List Nat
  result : Except IoError Unit

/-- Model of `util.rs`: `write_buffered`, modelled on the non-reentrant branch
(the reentrant branch differs only in which buffer is used).  A format
failure is reported (`ERRCODE::Format`) and NOT propagated; the buffer
content — whatever the format callable wrote, plus the appended
newline — is then written to the sink regardless.  Only the sink write
itself can fail the call (also reported, `ERRCODE::Write`).  Returns
(result, bytes handed to the sink write, diagnostics). -/
def write_buffered (fmt : FormatOutcome) (sinkWrite : List Nat → Except IoError Unit) :
    Except IoError Unit × List Nat × List Errcode :=
  let fmt_diags : List Errcode :=
    match fmt.result with
    | .error _ => [.format]
    | .ok _ => []
  let buffer := fmt.written ++ [10]
  match sinkWrite buffer with
  | .ok _ => (.ok (), buffer, fmt_diags)
  | .error e => (.error e, buffer, fmt_diags ++ [.write])

/-! ## Derived notions used by the theorems -/

/-- The next index a rotation starting from the given state targets:
`Start → 0`, `Idx(k) → k+1`. -/
def next_idx : IdxState → Nat
  | .Start => 0
  | .Idx k => k + 1

/-- The `created_at` stored in a state, when there is a rotation state. -/
def Inner.created_at? : Inner → Option OffsetDateTime
  | .Active (some rs) => some rs.created_at
  | _ => none

/-! ## Concrete fixtures (used to instantiate theorems with hypotheses) -/

/-- An oracle on which every filesystem operation succeeds. -/
def fsOk : Fs where
  rename := fun _ _ => .ok ()
  openFile := fun _ => .ok ()
  metadataLen := fun _ => .ok 0
  cleanupResult := .ok ()
  writeAll := fun _ => .ok ()
  globLogs := []
  globGz := []
  globZip := []
  chooseRotatedTarget := fun _ => "d/foo_rTS.log"

/-- An oracle whose renames all fail with `NotFound`. -/
def fsNotFound : Fs :=
  { fsOk with rename := fun _ _ => .error { kind := .notFound } }

/-- An oracle whose renames all fail with `PermissionDenied`. -/
def fsRenameDenied : Fs :=
  { fsOk with rename := fun _ _ => .error { kind := .permissionDenied } }

/-- A fixed instant. -/
def dtDefault : OffsetDateTime :=
  { year := 2024, month := 5, day := 6, hour := 7, minute := 8, second := 9, offset := 0 }

/-- A world with a lawful `to_offset` (it sets the offset field). -/
def worldDefault : World where
  now := dtDefault
  toOffset := fun t o => { t with offset := o }
  dayHeap := fun _ => 0

/-- A default sink configuration. -/
def configDefault : Config where
  file_spec := { directory := "d", basename := "foo", o_discriminant := none, suffix := "log" }
  append := false

/-- A rotation state (numbered naming, size roll) that does not yet
demand rotation: 4 of at most 10 bytes used. -/
def rsBelowLimit : RotationState where
  naming_state := .IdxState (.Idx 4)
  roll_state := .Size 10 4
  created_at := dtDefault
  cleanup := .Never
  has_cleanup_thread := false

/-- A rotation state (numbered naming, size roll) that demands
rotation: 11 of at most 10 bytes used. -/
def rsOverLimit : RotationState where
  naming_state := .IdxState (.Idx 4)
  roll_state := .Size 10 11
  created_at := dtDefault
  cleanup := .Never
  has_cleanup_thread := false

/-- A compressed sibling file name whose trailing `_r` segment does not
parse as a number. -/
def gzSibling : String := "d/foo_r00005.log.gz"

/-! ## Theorems settling the claims -/

/-- C3: under `Criterion::Size` / `RollState::Size`, `rotation_necessary`
returns true if and only if `current_size` is strictly greater than
`max_size`; in particular a file whose size exactly equals the limit is
not rotated. -/
theorem claim_C3 (w : World) (ns : NamingState) (ca : OffsetDateTime) (cl : Cleanup)
    (th : Bool) (max_size current_size : Nat) :
    (rotation_necessary w
        { naming_state := ns, roll_state := .Size max_size current_size,
          created_at := ca, cleanup := cl, has_cleanup_thread := th }).1 = true
      ↔ max_size < current_size := by
  simp [rotation_necessary, size_rotation_necessary]

/-- C4: under `Age::EveryNewDay`, `rotation_necessary` loads the shared
atomic day number, compares it to today's packed number
`year*10000 + month*100 + day` computed at the configured UTC offset,
returns false (leaving the world unchanged) on equality, and otherwise
stores today's number into the atomic and returns true; and cloning a
`SplitAtEveryNewDay` (as constructing sinks from the same value does)
yields a handle to the same atomic. -/
theorem claim_C4 (w : World) (ns : NamingState) (ca : OffsetDateTime) (cl : Cleanup)
    (th : Bool) (ref : Nat) (off : Int) :
    (rotation_necessary w
        { naming_state := ns,
          roll_state := .Age (.EveryNewDay { atomic_day_number := ref, utc_offset := off }),
          created_at := ca, cleanup := cl, has_cleanup_thread := th }) =
      (let today := (w.toOffset w.now off).year * 10000
          + (w.toOffset w.now off).month * 100 + (w.toOffset w.now off).day
       if w.dayHeap ref = today then (false, w)
       else (true, { w with dayHeap := fun r => if r = ref then today else w.dayHeap r }))
    ∧ ∀ s : SplitAtEveryNewDay, s.clone.atomic_day_number = s.atomic_day_number :=
  ⟨rfl, fun _ => rfl⟩

/-- C1: on rotation with `Naming::Numbers`, the new index is `Start → 0`
and `Idx(k) → k+1`; the file with infix `_rCURRENT` is renamed to the
file whose infix is `_r` followed by the new index zero-padded to 5
digits; a rename failure of kind `NotFound` is treated as success (a
no-op, returning the unchanged index state); any other rename error is
surfaced. -/
theorem claim_C1 (fs : Fs) (config : Config) (idx_state : IdxState) :
    (next_idx .Start = 0 ∧ ∀ k, next_idx (.Idx k) = k + 1) ∧
    ( number_infix (next_idx idx_state) =
        "_r" ++ String.mk (List.replicate (5 - (toString (next_idx idx_state)).length) '0')
          ++ toString (next_idx idx_state)) ∧
    (fs.rename (config.file_spec.as_pathbuf (some CURRENT_INFIX))
        (config.file_spec.as_pathbuf (some ( number_infix (next_idx idx_state)))) = .ok () →
      rotate_output_file_to_idx fs idx_state config = .ok (.Idx (next_idx idx_state))) ∧
    (∀ e : IoError, e.kind = .notFound →
      fs.rename (config.file_spec.as_pathbuf (some CURRENT_INFIX))
        (config.file_spec.as_pathbuf (some ( number_infix (next_idx idx_state)))) = .error e →
      rotate_output_file_to_idx fs idx_state config = .ok idx_state) ∧
    (∀ e : IoError, e.kind ≠ .notFound →
      fs.rename (config.file_spec.as_pathbuf (some CURRENT_INFIX))
        (config.file_spec.as_pathbuf (some ( number_infix (next_idx idx_state)))) = .error e →
      rotate_output_file_to_idx fs idx_state config = .error e) := by
  refine ⟨⟨rfl, fun _ => rfl⟩, rfl, ?_, ?_, ?_⟩
  · intro h
    cases idx_state <;> simp [rotate_output_file_to_idx, next_idx] at h ⊢ <;> simp [h]
  · intro e hk h
    cases idx_state <;> simp [rotate_output_file_to_idx, next_idx] at h ⊢ <;> simp [h, hk]
  · intro e hk h
    cases idx_state <;> simp [rotate_output_file_to_idx, next_idx] at h ⊢ <;> simp [h, hk]

/-- C1 witness at a concrete input: from `Start`, with a succeeding
rename, the rotation yields index 0. -/
theorem claim_C1_witness :
    rotate_output_file_to_idx fsOk .Start configDefault = .ok (.Idx 0) :=
  (claim_C1 fsOk configDefault .Start).2.2.1 rfl

/-- C10: when the rotation rename fails because `_rCURRENT` does not
exist (`NotFound`), `rotate_output_file_to_idx` returns the input index
state unchanged, and a later attempt from that same state (with a
succeeding rename) targets exactly the index this attempt would have
used. -/
theorem claim_C10 (fs1 fs2 : Fs) (config : Config) (idx_state : IdxState) (e : IoError)
    (hkind : e.kind = .notFound)
    (h1 : fs1.rename (config.file_spec.as_pathbuf (some CURRENT_INFIX))
        (config.file_spec.as_pathbuf (some ( number_infix (next_idx idx_state)))) = .error e)
    (h2 : fs2.rename (config.file_spec.as_pathbuf (some CURRENT_INFIX))
        (config.file_spec.as_pathbuf (some ( number_infix (next_idx idx_state)))) = .ok ()) :
    rotate_output_file_to_idx fs1 idx_state config = .ok idx_state ∧
    rotate_output_file_to_idx fs2 idx_state config = .ok (.Idx (next_idx idx_state)) := by
  cases idx_state <;>
    constructor <;>
      simp_all [rotate_output_file_to_idx, next_idx]

/-- C10 witness at a concrete input: a `NotFound` rotation from index 4
leaves the state at index 4, and the retry rotates to index 5. -/
theorem claim_C10_witness :
    rotate_output_file_to_idx fsNotFound (.Idx 4) configDefault = .ok (.Idx 4) ∧
    rotate_output_file_to_idx fsOk (.Idx 4) configDefault = .ok (.Idx 5) :=
  claim_C10 fsNotFound fsOk configDefault (.Idx 4) { kind := .notFound } rfl rfl rfl

/-- Auxiliary: once the discovery fold has seen one file, it stays at
`Idx`. -/
theorem highest_idx_fold_idx (l : List String) (k : Nat) :
    ∃ m, l.foldl highest_idx_step (.Idx k) = IdxState.Idx m := by
  induction l generalizing k with
  | nil => exact ⟨k, rfl⟩
  | cons f t ih => simpa [highest_idx_step] using ih (Nat.max k (rotate_idx_of_file f))

/-- C9: a matched sibling whose trailing `_r` segment does not parse as
a `u32` is counted with index 0, and whenever at least one sibling is
enumerated, `get_highest_rotate_idx` returns `Idx(k)` for some k —
never `Start`. -/
theorem claim_C9 (files : List String) (f : String)
    (hparse : parse_u32 (trailing_r_segment f) = none)
    (hne : files ≠ []) :
    rotate_idx_of_file f = 0 ∧ ∃ k, get_highest_rotate_idx files = .Idx k := by
  constructor
  · simp [rotate_idx_of_file, hparse]
  · obtain ⟨g, t, rfl⟩ := List.exists_cons_of_ne_nil hne
    simpa [get_highest_rotate_idx, highest_idx_step] using
      highest_idx_fold_idx t (rotate_idx_of_file g)

/-- C9 witness at a concrete input: the compressed sibling
`foo_r00005.log.gz` has trailing segment `00005.log`, which does not
parse, is counted as 0, and alone it yields `Idx 0`, not `Start`. -/
theorem claim_C9_witness :
    rotate_idx_of_file gzSibling = 0 ∧
    ∃ k, get_highest_rotate_idx [gzSibling] = .Idx k :=
  claim_C9 [gzSibling] gzSibling (by decide) (by simp)

/-- An uncompressed rotated sibling with a low index. -/
def olderLogFile : String := "d/a_r00001.log"

/-- A compressed rotated sibling with a higher (newer) index. -/
def newerGzFile : String := "d/a_r00009.log.gz"

/-- An oracle whose glob results contain an uncompressed sibling that is
older (smaller filename) than a compressed one. -/
def fsMixedSiblings : Fs :=
  { fsOk with globLogs := [olderLogFile], globGz := [newerGzFile] }

/-- C7 counterexample: the enumeration chains the (reversed) glob
results of the plain pattern before those of the `gz` pattern, so with
an uncompressed sibling `a_r00001.log` and a compressed sibling
`a_r00009.log.gz` the enumeration lists the smaller (older) filename
first — it is NOT ordered newest to oldest by filename across
compressed and uncompressed siblings. -/
theorem claim_C7_counterexample :
    list_of_log_and_compressed_files fsMixedSiblings = [olderLogFile, newerGzFile] ∧
    olderLogFile < newerGzFile :=
  ⟨rfl, by rw [String.lt_iff_toList_lt]; decide⟩

/-- C7 as amended: the enumeration is the concatenation of three
groups — uncompressed, `gz`-compressed, `zip`-compressed — each group
(being a reversed ascending glob result) ordered newest to oldest by
filename; and with limits (L, Z) the pass pairs the file at position i
of that enumeration with the action: keep for `i < L`; for
`L ≤ i < L+Z` compress to the name with extension `log.gz` (and delete
the original) when its extension is not `gz`, keep when it already is
`gz`; delete for `i ≥ L+Z`. -/
theorem claim_C7 (l : List String) (hl : List.Sorted (· ≤ ·) l)
    (fs : Fs) (L Z : Nat) (files : List String) (i : Nat) (f : String)
    (hi : files[i]? = some f) (ext : String) (hext : extensionOf f = some ext) :
    List.Sorted (· ≥ ·) (list_of_files l) ∧
    list_of_log_and_compressed_files fs =
      list_of_files fs.globLogs ++ list_of_files fs.globGz ++ list_of_files fs.globZip ∧
    (remove_or_compress_plan (.KeepLogAndCompressedFiles L Z) files)[i]? =
      some (f, file_action L Z i f) ∧
    (i < L → file_action L Z i f = .keep) ∧
    (L ≤ i → i < L + Z → ext ≠ "gz" →
      file_action L Z i f = .compress (set_extension f "log.gz")) ∧
    (L ≤ i → i < L + Z → ext = "gz" → file_action L Z i f = .keep) ∧
    (L + Z ≤ i → file_action L Z i f = .delete) := by
  refine ⟨?_, rfl, ?_, ?_, ?_, ?_, ?_⟩
  · simpa [list_of_files, List.Sorted, List.pairwise_reverse, ge_iff_le] using hl
  · simp [remove_or_compress_plan, cleanup_limits, List.getElem?_map, List.getElem?_enum, hi]
  · intro h
    have h2 : ¬ L + Z ≤ i := by omega
    have h3 : ¬ L ≤ i := by omega
    simp [file_action, h2, h3]
  · intro h1 h2 hgz
    have h3 : ¬ L + Z ≤ i := by omega
    simp [file_action, h1, h2, h3, hext, hgz]
  · intro h1 h2 hgz
    have h3 : ¬ L + Z ≤ i := by omega
    simp [file_action, h1, h2, h3, hext, hgz]
  · intro h
    simp [file_action, h]

/-- C7 witness at concrete inputs: a sorted two-element glob group, the
mixed-sibling oracle, and the plan over two files with limits
L = 1, Z = 1: position 0 is kept, position 1 is compressed. -/
theorem claim_C7_witness :
    List.Sorted (· ≥ ·) (list_of_files [olderLogFile, newerGzFile]) ∧
    list_of_log_and_compressed_files fsMixedSiblings =
      list_of_files fsMixedSiblings.globLogs ++ list_of_files fsMixedSiblings.globGz
        ++ list_of_files fsMixedSiblings.globZip ∧
    (remove_or_compress_plan (.KeepLogAndCompressedFiles 1 1)
        [olderLogFile, newerGzFile])[1]? =
      some (newerGzFile, file_action 1 1 1 newerGzFile) ∧
    (1 < 1 → file_action 1 1 1 newerGzFile = .keep) ∧
    (1 ≤ 1 → 1 < 1 + 1 → "gz" ≠ "gz" →
      file_action 1 1 1 newerGzFile = .compress (set_extension newerGzFile "log.gz")) ∧
    (1 ≤ 1 → 1 < 1 + 1 → "gz" = "gz" → file_action 1 1 1 newerGzFile = .keep) ∧
    (1 + 1 ≤ 1 → file_action 1 1 1 newerGzFile = .delete) :=
  claim_C7 [olderLogFile, newerGzFile]
    (by
      simp only [List.sorted_cons, List.mem_singleton, List.sorted_singleton, forall_eq,
        List.not_mem_nil, false_implies, and_true, implies_true]
      rw [String.le_iff_toList_le]
      decide)
    fsMixedSiblings 1 1 [olderLogFile, newerGzFile] 1 newerGzFile rfl "gz" (by decide)

/-- A format outcome that wrote nothing and failed. -/
def fmtFailEmpty : FormatOutcome where
  written := []
  result := .error { kind := .other }

/-- A sink write that always succeeds. -/
def sinkOk : List Nat → Except IoError Unit := fun _ => .ok ()

/-- C6 counterexample: when the format callable fails having written
nothing, the call still hands the appended newline byte to the log
file — the record is not dropped without trace, contradicting that
nothing for the record is written. -/
theorem claim_C6_counterexample :
    (write_buffered fmtFailEmpty sinkOk).2.1 = [10] ∧
    (write_buffered fmtFailEmpty sinkOk).1 = .ok () ∧
    ([10] : List Nat) ≠ [] :=
  ⟨rfl, rfl, by decide⟩

/-- C6 as amended: if the format callable fails, the failure is
reported to the diagnostic channel (`ERRCODE::Format`) and the write
call does not fail because of the format error; but the record is not
dropped entirely: the bytes the format callable wrote before failing,
plus the appended newline, are still written to the log file. -/
theorem claim_C6 (fmt : FormatOutcome) (e : IoError)
    (sinkWrite : List Nat → Except IoError Unit)
    (hfmt : fmt.result = .error e)
    (hsink : ∀ b, sinkWrite b = .ok ()) :
    (write_buffered fmt sinkWrite).1 = .ok () ∧
    (write_buffered fmt sinkWrite).2.2 = [.format] ∧
    (write_buffered fmt sinkWrite).2.1 = fmt.written ++ [10] := by
  simp [write_buffered, hfmt, hsink]

/-- C6 witness at a concrete input. -/
theorem claim_C6_witness :
    (write_buffered fmtFailEmpty sinkOk).1 = .ok () ∧
    (write_buffered fmtFailEmpty sinkOk).2.2 = [.format] ∧
    (write_buffered fmtFailEmpty sinkOk).2.1 = fmtFailEmpty.written ++ [10] :=
  claim_C6 fmtFailEmpty { kind := .other } sinkOk rfl (fun _ => rfl)

/-- Auxiliary: the age check can touch the day-number heap, but never
the clock (`now`) or the civil-time conversion of the world. -/
theorem age_rotation_necessary_clock (w : World) (ca : OffsetDateTime) (a : Age) :
    (age_rotation_necessary w ca a).2.toOffset = w.toOffset ∧
    (age_rotation_necessary w ca a).2.now = w.now := by
  cases a with
  | EveryNewDay s =>
    simp only [age_rotation_necessary]
    split <;> exact ⟨rfl, rfl⟩
  | Day => exact ⟨rfl, rfl⟩
  | Hour => exact ⟨rfl, rfl⟩
  | Minute => exact ⟨rfl, rfl⟩
  | Second => exact ⟨rfl, rfl⟩

/-- Auxiliary: the rotation policy never changes the clock or the
civil-time conversion of the world. -/
theorem rotation_necessary_clock (w : World) (rs : RotationState) :
    (rotation_necessary w rs).2.toOffset = w.toOffset ∧
    (rotation_necessary w rs).2.now = w.now := by
  rcases rs with ⟨ns, roll, ca, cl, th⟩
  cases roll with
  | Size m c => exact ⟨rfl, rfl⟩
  | Age a => exact age_rotation_necessary_clock w ca a
  | AgeOrSize a m c =>
    simp only [rotation_necessary]
    split
    · exact ⟨rfl, rfl⟩
    · exact age_rotation_necessary_clock w ca a

/-- C8: after a completed rotation, the mount step stores as
`created_at` the open-time creation instant converted to the hard-coded
fixed UTC offset +8 — so (with a lawful `to_offset`) the stored offset
is +8 hours, and differs from every configured offset other than +8. -/
theorem claim_C8 (fs : Fs) (w : World) (config : Config) (rs : RotationState)
    (hto : ∀ t o, (w.toOffset t o).offset = o)
    (hneed : (rotation_necessary w rs).1 = true)
    (hrot : ∃ ns, rotate_step fs config rs = .ok ns)
    (hopen : fs.openFile (config.file_spec.as_pathbuf (some CURRENT_INFIX)) = .ok ()) :
    ∃ rs' : RotationState,
      (mount_next_linewriter_if_necessary fs w config (.Active (some rs))).2.1 =
        .Active (some rs') ∧
      rs'.created_at = w.toOffset w.now offset_plus_8 ∧
      rs'.created_at.offset = offset_plus_8 ∧
      ∀ c : Int, c ≠ offset_plus_8 → rs'.created_at.offset ≠ c := by
  obtain ⟨ns, hr⟩ := hrot
  have hclock := rotation_necessary_clock w rs
  rcases hrn : rotation_necessary w rs with ⟨need, w1⟩
  rw [hrn] at hneed hclock
  simp only at hneed
  subst hneed
  simp only at hclock
  simp only [mount_next_linewriter_if_necessary, hrn, if_true, hr, open_log_file,
    if_pos, hopen, get_creation_date]
  rcases hc : remove_or_compress_too_old_logfiles fs rs.has_cleanup_thread rs.cleanup
    with e2 | u <;>
  · refine ⟨_, rfl, ?_, ?_, ?_⟩ <;>
      simp [hclock.1, hclock.2, hto]
      <;> intro c hcc <;> omega

/-- C8 witness at a concrete input: rotating the over-limit numbered
sink stores a `created_at` pinned to offset +8 (28800 seconds). -/
theorem claim_C8_witness :
    ∃ rs' : RotationState,
      (mount_next_linewriter_if_necessary fsOk worldDefault configDefault
          (.Active (some rsOverLimit))).2.1 = .Active (some rs') ∧
      rs'.created_at = worldDefault.toOffset worldDefault.now offset_plus_8 ∧
      rs'.created_at.offset = offset_plus_8 ∧
      ∀ c : Int, c ≠ offset_plus_8 → rs'.created_at.offset ≠ c :=
  claim_C8 fsOk worldDefault configDefault rsOverLimit (fun _ _ => rfl) rfl
    ⟨.IdxState (.Idx 5), rfl⟩ rfl

/-- A sink state over the size limit (rotation due on next write). -/
def stOverLimit : State where
  config := configDefault
  inner := .Active (some rsOverLimit)

/-- C5 counterexample: with every rename failing with
`PermissionDenied` (not `NotFound`) and the byte write succeeding, the
write call does NOT fail with the rename error — it returns success and
only reports `ERRCODE::LogFile` to the diagnostic channel.  The claim
that "any other rename error propagates to the caller of write" is
false for the rotation performed during a write. -/
theorem claim_C5_counterexample :
    (write_buffer fsRenameDenied worldDefault stOverLimit 3).result = .ok () ∧
    (write_buffer fsRenameDenied worldDefault stOverLimit 3).diags = [.logFile] :=
  ⟨rfl, rfl⟩

/-- C5 as amended: during a write, a rotation rename failure of kind
`NotFound` is treated as success (the rotation step returns Ok with the
naming state it would otherwise not advance); any OTHER rename error
makes the rotation step fail, but that failure does not propagate to
the caller of write: it is reported to the diagnostic channel with
`ERRCODE::LogFile` and swallowed, and the write call succeeds whenever
writing the bytes succeeds. -/
theorem claim_C5 (fs : Fs) (w : World) (config : Config) (rs : RotationState)
    (bufLen : Nat) (e : IoError)
    (hrename : ∀ src dst, fs.rename src dst = .error e)
    (hneed : (rotation_necessary w rs).1 = true)
    (hwrite : fs.writeAll bufLen = .ok ()) :
    (e.kind = .notFound → rotate_step fs config rs = .ok rs.naming_state) ∧
    (e.kind ≠ .notFound →
      rotate_step fs config rs = .error e ∧
      (write_buffer fs w { config := config, inner := .Active (some rs) } bufLen).result
        = .ok () ∧
      (write_buffer fs w { config := config, inner := .Active (some rs) } bufLen).diags
        = [.logFile]) := by
  constructor
  · intro hk
    rcases hns : rs.naming_state with _ | ist
    · simp [rotate_step, hns, rotate_output_file_to_date, hrename, hk]
    · simp [rotate_step, hns, rotate_output_file_to_idx, hrename, hk]
  · intro hk
    have hstep : rotate_step fs config rs = .error e := by
      rcases hns : rs.naming_state with _ | ist
      · simp [rotate_step, hns, rotate_output_file_to_date, hrename, hk]
      · simp [rotate_step, hns, rotate_output_file_to_idx, hrename, hk]
    rcases hrn : rotation_necessary w rs with ⟨need, w1⟩
    rw [hrn] at hneed
    simp only at hneed
    subst hneed
    refine ⟨hstep, ?_, ?_⟩ <;>
      simp [write_buffer, mount_next_linewriter_if_necessary, hrn, hstep, hwrite]

/-- C5 witness at a concrete input: the `PermissionDenied` oracle on
the over-limit sink. -/
theorem claim_C5_witness :
    rotate_step fsRenameDenied configDefault rsOverLimit =
      .error { kind := .permissionDenied } ∧
    (write_buffer fsRenameDenied worldDefault
        { config := configDefault, inner := .Active (some rsOverLimit) } 3).result
      = .ok () ∧
    (write_buffer fsRenameDenied worldDefault
        { config := configDefault, inner := .Active (some rsOverLimit) } 3).diags
      = [.logFile] :=
  (claim_C5 fsRenameDenied worldDefault configDefault rsOverLimit 3
      { kind := .permissionDenied } (fun _ _ => rfl) rfl rfl).2 (by decide)

/-- C2: for a sink with `RollState::Size`, after a successful
`write_buffer(buf)` the size counter equals its pre-call value plus the
buffer length — unless the call performed a (complete) rotation, in
which case the counter was reset to 0 before the bytes were written and
so ends at exactly the buffer length. -/
theorem claim_C2 (fs : Fs) (w : World) (config : Config) (ns : NamingState)
    (ca : OffsetDateTime) (cl : Cleanup) (th : Bool)
    (max_size current_size bufLen : Nat)
    (hres : (write_buffer fs w
        ⟨config, .Active (some ⟨ns, .Size max_size current_size, ca, cl, th⟩)⟩
        bufLen).result = .ok ()) :
    (write_buffer fs w
        ⟨config, .Active (some ⟨ns, .Size max_size current_size, ca, cl, th⟩)⟩
        bufLen).state.inner.current_size?
      = some (if rotation_completed fs w config
            ⟨ns, .Size max_size current_size, ca, cl, th⟩ = true
          then bufLen else current_size + bufLen) := by
  cases hn : size_rotation_necessary max_size current_size with
  | false =>
    cases hw : fs.writeAll bufLen with
    | error e =>
      simp [write_buffer, mount_next_linewriter_if_necessary, rotation_necessary,
        hn, hw] at hres
    | ok u =>
      simp [write_buffer, mount_next_linewriter_if_necessary, rotation_necessary,
        rotation_completed, hn, hw, add_current_size, Inner.current_size?]
  | true =>
    cases hr : rotate_step fs config
        ⟨ns, .Size max_size current_size, ca, cl, th⟩ with
    | error e =>
      cases hw : fs.writeAll bufLen with
      | error e2 =>
        simp [write_buffer, mount_next_linewriter_if_necessary, rotation_necessary,
          hn, hr, hw] at hres
      | ok u =>
        simp [write_buffer, mount_next_linewriter_if_necessary, rotation_necessary,
          rotation_completed, hn, hr, hw, Except.isOk, Except.toBool, add_current_size,
          Inner.current_size?]
    | ok ns2 =>
      cases ho : fs.openFile (config.file_spec.as_pathbuf (some CURRENT_INFIX)) with
      | error e =>
        cases hw : fs.writeAll bufLen with
        | error e2 =>
          simp [write_buffer, mount_next_linewriter_if_necessary, rotation_necessary,
            open_log_file, hn, hr, ho, hw] at hres
        | ok u =>
          simp [write_buffer, mount_next_linewriter_if_necessary, rotation_necessary,
            rotation_completed, open_log_file, hn, hr, ho, hw, Except.isOk, Except.toBool,
            add_current_size, Inner.current_size?]
      | ok u0 =>
        cases hc : remove_or_compress_too_old_logfiles fs th cl with
        | error e2 =>
          cases hw : fs.writeAll bufLen with
          | error e3 =>
            simp [write_buffer, mount_next_linewriter_if_necessary, rotation_necessary,
              open_log_file, hn, hr, ho, hc, hw] at hres
          | ok u =>
            simp [write_buffer, mount_next_linewriter_if_necessary, rotation_necessary,
              rotation_completed, open_log_file, hn, hr, ho, hc, hw, Except.isOk, Except.toBool,
              reset_current_size, add_current_size, Inner.current_size?]
        | ok u1 =>
          cases hw : fs.writeAll bufLen with
          | error e3 =>
            simp [write_buffer, mount_next_linewriter_if_necessary, rotation_necessary,
              open_log_file, hn, hr, ho, hc, hw] at hres
          | ok u =>
            simp [write_buffer, mount_next_linewriter_if_necessary, rotation_necessary,
              rotation_completed, open_log_file, hn, hr, ho, hc, hw, Except.isOk, Except.toBool,
              reset_current_size, add_current_size, Inner.current_size?]

/-- C2 witness at a concrete input: the below-limit sink (4 of 10 bytes
used) accepts a 3-byte buffer without rotation, ending at 7 bytes. -/
theorem claim_C2_witness :
    (write_buffer fsOk worldDefault
        ⟨configDefault, .Active (some rsBelowLimit)⟩ 3).state.inner.current_size?
      = some 7 :=
  (claim_C2 fsOk worldDefault configDefault (.IdxState (.Idx 4))
    dtDefault .Never false 10 4 3 rfl).trans rfl

end FlexiLogger
